import Mathlib

/-!
Verification of the linea-bot sweep bot (`src/bot.js`).

The definitions below are a shallow embedding of the program's data model
and operations: the health metrics table (`updateMetrics`), the
multi-endpoint RPC pool (`selectBestProvider`, `callWithFallback`), the
per-asset processing-lock table (`getLock`/`setLock`,
`resetProcessingLocks`), the transfer submission loop with retry
(`transferWithRetry` and its `retryLoop`), the transaction queue drain
machine (`qstep`/`runOps`) and the watcher-side enqueue guard
(`enqueueTransfer`).  Network calls are modelled by an explicit
environment (`TransferEnv`) giving the result of each chain interaction;
JavaScript `BigNumber` arithmetic on nonnegative values is modelled by
`Nat` with truncating division.
-/

namespace LineaBot

/-! ## Health metrics (`bot.js` lines 42-78)

The `metrics` object holds counters mutated by `updateMetrics`.  The
wall-clock fields (`startTime`, `lastTxTime`, `lastHeartbeat`) are
omitted: no counter logic depends on them. -/

structure Metrics where
  totalTransactions : Nat := 0
  successfulTx : Nat := 0
  failedTx : Nat := 0
  rpcFailures : Nat := 0
  wsReconnections : Nat := 0
  consecutiveFailures : Nat := 0
  processingLockResets : Nat := 0
deriving DecidableEq, Repr

/-- The initial `metrics` object: every counter starts at zero. -/
def initialMetrics : Metrics := {}

/-- The `type` argument of `updateMetrics`, with the boolean `success`
argument folded into the `transaction` case; `unknown` stands for any
string matching no `case` label (the `switch` then does nothing). -/
inductive MetricType
  | transaction (success : Bool)
  | rpcFailure
  | reconnection
  | lockReset
  | unknown
deriving DecidableEq, Repr

/-- `updateMetrics(type, success)` (`bot.js` lines 55-78). -/
def updateMetrics : MetricType → Metrics → Metrics
  | .transaction success, m =>
    let m1 := { m with totalTransactions := m.totalTransactions + 1 }
    if success then
      { m1 with successfulTx := m1.successfulTx + 1, consecutiveFailures := 0 }
    else
      { m1 with failedTx := m1.failedTx + 1,
                consecutiveFailures := m1.consecutiveFailures + 1 }
  | .rpcFailure, m => { m with rpcFailures := m.rpcFailures + 1 }
  | .reconnection, m => { m with wsReconnections := m.wsReconnections + 1 }
  | .lockReset, m => { m with processingLockResets := m.processingLockResets + 1 }
  | .unknown, m => m

/-! ## MultiRpcProvider (`bot.js` lines 117-240)

A latency is `some n` (milliseconds) or `none` for `Infinity`
(unreachable).  `Math.min(...latencies)` returns `Infinity` exactly when
the list is empty or every entry is `Infinity`. -/

/-- `Math.min` on two latencies, `none` playing the role of `Infinity`. -/
def latMin : Option Nat → Option Nat → Option Nat
  | none, b => b
  | some x, none => some x
  | some x, some y => some (min x y)

/-- `Math.min(...this.latencies)`: the least latency, `none` (= `Infinity`)
for an empty list. -/
def minLatency (ls : List (Option Nat)) : Option Nat :=
  ls.foldr latMin none

/-- `this.latencies.indexOf(m)`: index of the first occurrence. -/
def indexOfLat (ls : List (Option Nat)) (m : Option Nat) : Nat :=
  ls.findIdx (fun x => x = m)

/-- The endpoint-selection state of `MultiRpcProvider`: the recorded
latency table and `currentIndex`. -/
structure PoolState where
  latencies : List (Option Nat)
  currentIndex : Nat
deriving DecidableEq, Repr

/-- `selectBestProvider()` (`bot.js` lines 183-192): if the minimum
latency is `Infinity` it logs and returns leaving the selection
unchanged; otherwise it points `currentIndex` at the first endpoint with
the minimum latency. -/
def selectBestProvider (s : PoolState) : PoolState :=
  let m := minLatency s.latencies
  if m = none then s
  else { s with currentIndex := indexOfLat s.latencies m }

/-- `callWithFallback(fn)` (`bot.js` lines 218-228), with `fn`'s
deterministic behaviour on each provider given as a list of
`Except` results in pool order.  The JS loop returns the first success;
on failure it moves on, rethrowing only at the last index; on an empty
pool the loop body never runs and `undefined` is returned (modelled by
`.ok none`). -/
def callWithFallback {ε α : Type} : List (Except ε α) → Except ε (Option α)
  | [] => .ok none
  | [r] =>
    match r with
    | .ok a => .ok (some a)
    | .error e => .error e
  | r :: r2 :: rest =>
    match r with
    | .ok a => .ok (some a)
    | .error _ => callWithFallback (r2 :: rest)

/-- The result of `fn` on the first provider where it succeeds. -/
def firstSuccess {ε α : Type} (rs : List (Except ε α)) : Option α :=
  rs.findSome? (fun r => r.toOption)

/-! ## Processing-lock table (`bot.js` lines 256, 359-374)

`tokenProcessing` is a `Map` from lower-cased token address to boolean.
`Map.get` on an absent key yields `undefined`, which is falsy, so the
lookup defaults to `false`. -/

/-- The `tokenProcessing` map, as an association list. -/
abbrev Locks : Type := List (String × Bool)

/-- `tokenProcessing.get(addr)` coerced to boolean. -/
def getLock : Locks → String → Bool
  | [], _ => false
  | (k, b) :: rest, a => if k = a then b else getLock rest a

/-- `tokenProcessing.set(addr, v)`: replace in place, or append a new
entry. -/
def setLock : Locks → String → Bool → Locks
  | [], a, v => [(a, v)]
  | (k, b) :: rest, a, v =>
    if k = a then (k, v) :: rest else (k, b) :: setLock rest a v

/-- `resetProcessingLocks()` (`bot.js` lines 359-371): walk the table,
force every held lock to `false`, and count how many were reset. -/
def resetProcessingLocks (l : Locks) : Locks × Nat :=
  ((l.map fun e => (e.1, false)), (l.filter fun e => e.2).length)

/-! ## Address normalization

`tokenAddress.toLowerCase()`, character by character over the string's
underlying list. -/

/-- Lower-case every character of a list. -/
def lowerChars : List Char → List Char
  | [] => []
  | c :: cs => c.toLower :: lowerChars cs

/-- `tokenAddress.toLowerCase()`. -/
def normalizeAddr (s : String) : String := ⟨lowerChars s.data⟩

/-! ## `transferWithRetry` (`bot.js` lines 380-517)

The chain interactions of one job are captured by a `TransferEnv`:
the token-registry lookup, the balance read (after its fallback), the
`initNonce` read, and per attempt the fresh gas-price/estimate fetch and
the classified outcome of the submission.  A `none` gas fetch means both
the fast path and `callWithFallback` threw; the resulting error reaches
the loop's `catch` where it matches none of the three message patterns.
In that case `gasPrice` still has its previous value — `undefined` on a
first attempt, making `gasPrice.mul(110)` itself throw out of the
function (modelled as the `thrown` outcome). -/

/-- Classification of a caught submission error by `err.message`
(`bot.js` lines 483-493). -/
inductive FailKind
  | nonceTooLow (pending : Nat)
  | underpriced
  | insufficientFunds
  | other
deriving DecidableEq, Repr

/-- What a submission attempt does once its gas price was fetched. -/
inductive AttemptOutcome
  | success
  | fail (k : FailKind)
deriving DecidableEq, Repr

/-- Notification / terminal-report labels. -/
inductive NotifyKind
  | confirmed
  | insufficientFunds
  | failAlert
  | exhaustedFail
deriving DecidableEq, Repr

/-- Observable events of a job: each `sendTransaction` issued (with the
attempt number, nonce and gas price attached to it) and each outbound
notification. -/
inductive Ev
  | submit (attempt nonce gasPrice : Nat)
  | notify (k : NotifyKind)
deriving DecidableEq, Repr

/-- Deterministic record of every chain interaction of one
`transferWithRetry` job. -/
structure TransferEnv where
  /-- `tokenContracts.get(addr)` hit (the registry holds the token). -/
  tokenKnown : Bool
  /-- `balanceOf` result; `none` when the fast path and the fallback
  both threw (the error propagates out of the function). -/
  balance : Option Nat
  /-- `wallet.getTransactionCount('pending')` inside `initNonce`;
  `none` when the read throws. -/
  initNonce : Option Nat
  /-- Fresh gas price per attempt number, after the `.mul(120).div(100)`
  source value; `none` when fast path and fallback both threw. -/
  gas : Nat → Option Nat
  /-- Outcome of attempt `k` (estimate/send/wait), when gas was fetched. -/
  outcome : Nat → AttemptOutcome

/-- The mutable state a job reads and writes: the `tokenProcessing`
lock table, `txQueue.nonce` (`null` at startup), the metrics counters,
and the trace of emitted events. -/
structure BotState where
  locks : Locks
  txNonce : Option Nat
  metrics : Metrics
  events : List Ev

/-- Append an observable event. -/
def pushEv (s : BotState) (e : Ev) : BotState :=
  { s with events := s.events ++ [e] }

/-- How one `transferWithRetry` invocation ended. -/
inductive JobOutcome
  /-- The `tokenProcessing.get(addr)` guard returned early. -/
  | skipped
  /-- `tokenContracts.get(addr)` missed. -/
  | noToken
  /-- `currentBalance.lte(0)`. -/
  | noBalance
  /-- An error propagated out of the function body. -/
  | thrown
  /-- `return true` with the nonce and gas price of the confirmed
  transaction. -/
  | success (nonceUsed gasUsed : Nat)
  /-- `return false` on `insufficient funds`. -/
  | fatal
  /-- `return false` after `maxRetries` attempts. -/
  | exhausted
deriving DecidableEq, Repr

/-- The retry loop of `transferWithRetry` (`bot.js` lines 422-511).
`fuel` is `maxRetries - attempt` (the loop runs while
`attempt < maxRetries`); `attempt` is the JS counter before the
`attempt++` at the top of the body; `gasPrice` is the JS `gasPrice`
variable, `none` while still `undefined`; `nonce` is the JS `nonce`
variable.  The `catch` block (lines 480-500) resyncs on `nonce too low`,
pre-bumps on `replacement transaction underpriced`, returns on
`insufficient funds`, and then unconditionally applies
`gasPrice.mul(110).div(100)`, `nonce++` and `txQueue.nonce = nonce` —
the `nonce too low` branch therefore also falls through to the
unconditional bump. -/
def retryLoop (env : TransferEnv) :
    Nat → Nat → Option Nat → Nat → BotState → JobOutcome × BotState
  | 0, _, _, _, s =>
    -- `while` exits: log, count the failure, alert on a streak, notify.
    let s1 := { s with metrics := updateMetrics (.transaction false) s.metrics }
    let s2 := if 5 ≤ s1.metrics.consecutiveFailures
              then pushEv s1 (.notify .failAlert) else s1
    (.exhausted, pushEv s2 (.notify .exhaustedFail))
  | fuel + 1, attempt, gasPrice, nonce, s =>
    let att := attempt + 1
    match env.gas att with
    | none =>
      -- Both gas fetches threw; the error lands in the `catch` matching
      -- no message pattern, and `gasPrice.mul(110)` runs on the stale
      -- value — a crash when it is still `undefined`.
      match gasPrice with
      | none => (.thrown, s)
      | some g =>
        retryLoop env fuel att (some (g * 110 / 100)) (nonce + 1)
          { s with txNonce := some (nonce + 1) }
    | some est =>
      let gp := est * 120 / 100
      let s1 := pushEv s (.submit att nonce gp)
      match env.outcome att with
      | .success =>
        -- lines 467-479: confirm, `nonce++`, hand the nonce back,
        -- count the success, notify, `return true`.
        let s2 := { s1 with txNonce := some (nonce + 1),
                            metrics := updateMetrics (.transaction true) s1.metrics }
        (.success nonce gp, pushEv s2 (.notify .confirmed))
      | .fail .insufficientFunds =>
        -- lines 488-493: log, notify, count the failure, `return false`.
        let s2 := pushEv s1 (.notify .insufficientFunds)
        (.fatal, { s2 with metrics := updateMetrics (.transaction false) s2.metrics })
      | .fail (.nonceTooLow p) =>
        -- lines 483-485 set `nonce` to the fresh pending count, then
        -- lines 495-497 still bump the gas price and increment `nonce`.
        retryLoop env fuel att (some (gp * 110 / 100)) (p + 1)
          { s1 with txNonce := some (p + 1) }
      | .fail .underpriced =>
        -- line 487 bumps once, line 495 bumps again; `nonce++` follows.
        retryLoop env fuel att (some (gp * 110 / 100 * 110 / 100)) (nonce + 1)
          { s1 with txNonce := some (nonce + 1) }
      | .fail .other =>
        retryLoop env fuel att (some (gp * 110 / 100)) (nonce + 1)
          { s1 with txNonce := some (nonce + 1) }

/-- The body of `transferWithRetry` inside the `try` (`bot.js` lines
390-511): registry lookup, balance check, `initNonce` when
`!txQueue.nonce` (which is truthy both for `null` and for `0`), then the
retry loop with `maxRetries = 5`. -/
def transferBody (env : TransferEnv) (s : BotState) : JobOutcome × BotState :=
  if ¬ env.tokenKnown then (.noToken, s)
  else
    match env.balance with
    | none => (.thrown, s)
    | some b =>
      if b = 0 then (.noBalance, s)
      else
        if s.txNonce.getD 0 = 0 then
          match env.initNonce with
          | none => (.thrown, s)
          | some p => retryLoop env 5 0 none p { s with txNonce := some p }
        else
          retryLoop env 5 0 none (s.txNonce.getD 0) s

/-- `transferWithRetry(tokenAddress)` (`bot.js` lines 380-517):
lower-case the address, return early if the processing lock is held,
otherwise take the lock, run the body, and release the lock in
`finally` on every exit — normal returns and thrown errors alike. -/
def transferWithRetry (env : TransferEnv) (tokenAddress : String)
    (s : BotState) : JobOutcome × BotState :=
  let addr := normalizeAddr tokenAddress
  if getLock s.locks addr then (.skipped, s)
  else
    let s1 := { s with locks := setLock s.locks addr true }
    let r := transferBody env s1
    (r.1, { r.2 with locks := setLock r.2.locks addr false })

/-! ## TxQueue drain machine (`bot.js` lines 307-341)

`enqueue` pushes a job and starts `process()` when idle; `process` sets
`processing`, then repeatedly shifts the front job and `await`s
`transferWithRetry` on it until the queue is empty, then clears
`processing`.  The `await` is modelled by the `beginJob` guard: a new
job may only be taken when no job is in flight. -/

/-- Scheduler-visible operations on the queue. -/
inductive QOp
  /-- `enqueue(job)`: push, and (synchronously) start `process()` if it
  was idle, which sets `processing = true`. -/
  | arrive (a : String)
  /-- The drain loop's next step: shift the front job and start it, or
  exit the loop (clearing `processing`) when the queue is empty.  Only
  enabled while no job is awaited. -/
  | beginJob
  /-- The `await transferWithRetry(...)` resolves: the in-flight job
  completes. -/
  | endJob
deriving DecidableEq, Repr

/-- The `TxQueue` drain state, with the ghost fields `processed` (jobs
completed, in completion order) and `arrivals` (jobs enqueued, in
arrival order). -/
structure QState where
  queue : List String
  processing : Bool
  inFlight : Option String
  processed : List String
  arrivals : List String
deriving DecidableEq, Repr

/-- The idle `TxQueue`. -/
def initQState : QState :=
  { queue := [], processing := false, inFlight := none,
    processed := [], arrivals := [] }

/-- One scheduler step. -/
def qstep : QOp → QState → QState
  | .arrive a, s =>
    { s with queue := s.queue ++ [a], arrivals := s.arrivals ++ [a],
             processing := true }
  | .beginJob, s =>
    if s.processing ∧ s.inFlight = none then
      match s.queue with
      | [] => { s with processing := false }
      | j :: rest => { s with queue := rest, inFlight := some j }
    else s
  | .endJob, s =>
    match s.inFlight with
    | none => s
    | some j => { s with inFlight := none, processed := s.processed ++ [j] }

/-- Run a sequence of scheduler operations from the idle queue. -/
def runOps (ops : List QOp) : QState :=
  ops.foldl (fun s op => qstep op s) initQState

/-! ## Watcher-side enqueue guard (`bot.js` lines 343-353) -/

/-- The state `enqueueTransfer` touches: the lock table and the FIFO. -/
structure WatchState where
  locks : Locks
  queue : List String
deriving DecidableEq, Repr

/-- `enqueueTransfer(tokenAddress)`: lower-case the address, skip when
the processing lock for it is held, otherwise push a job onto
`txQueue`. -/
def enqueueTransfer (tokenAddress : String) (s : WatchState) : WatchState :=
  let addr := normalizeAddr tokenAddress
  if getLock s.locks addr then s
  else { s with queue := s.queue ++ [addr] }

/-! ## Concrete runs used to analyse the scenarios -/

/-- The nonces carried by the `sendTransaction` calls of a trace, in
submission order. -/
def submitNonces : List Ev → List Nat
  | [] => []
  | .submit _ n _ :: rest => n :: submitNonces rest
  | .notify _ :: rest => submitNonces rest

/-- A job state whose lock is free and whose sequencer nonce is 10. -/
def jobState10 : BotState :=
  { locks := [("a", false)], txNonce := some 10,
    metrics := initialMetrics, events := [] }

/-- A job state whose lock is free and whose sequencer nonce is 7. -/
def jobState7 : BotState :=
  { locks := [("a", false)], txNonce := some 7,
    metrics := initialMetrics, events := [] }

/-- Chain behaviour: attempt 1 is rejected with `nonce too low` and the
fresh pending count reads 50; attempt 2 confirms.  Every gas-price
fetch returns 100. -/
def envResync : TransferEnv :=
  { tokenKnown := true, balance := some 5, initNonce := some 0,
    gas := fun _ => some 100,
    outcome := fun k => if k = 1 then .fail (.nonceTooLow 50) else .success }

/-- Chain behaviour of the §8 scenario: balance present, attempts 1 and
2 fail with generic errors, attempt 3 confirms; every gas-price fetch
returns 100. -/
def envTwoFails : TransferEnv :=
  { tokenKnown := true, balance := some 1000, initNonce := some 0,
    gas := fun _ => some 100,
    outcome := fun k => if k < 3 then .fail .other else .success }

/-- Chain behaviour: the first submission is rejected with
`insufficient funds`. -/
def envFatal : TransferEnv :=
  { tokenKnown := true, balance := some 5, initNonce := some 0,
    gas := fun _ => some 100,
    outcome := fun _ => .fail .insufficientFunds }

/-- Chain behaviour: the first submission confirms. -/
def envClean : TransferEnv :=
  { tokenKnown := true, balance := some 5, initNonce := some 0,
    gas := fun _ => some 100,
    outcome := fun _ => .success }

/-- Watcher state in which job `"a"` is already queued behind a running
job `"b"` that holds its lock, while `"a"`'s own lock is still free. -/
def busyWatch : WatchState :=
  { locks := [("a", false), ("b", true)], queue := ["a"] }

/-! # Theorems -/

/-! ## Lock-table helpers -/

/-- Setting a lock makes its own lookup return the written value. -/
theorem getLock_setLock_self (l : Locks) (a : String) (v : Bool) :
    getLock (setLock l a v) a = v := by
  induction l with
  | nil => simp [setLock, getLock]
  | cons e rest ih =>
    obtain ⟨k, b⟩ := e
    by_cases h : k = a
    · simp [setLock, getLock, h]
    · simp [setLock, getLock, h, ih]

/-! ## Metrics helpers -/

/-- One `updateMetrics` call preserves
`totalTransactions = successfulTx + failedTx`. -/
theorem updateMetrics_preserves_total (t : MetricType) (m : Metrics)
    (h : m.totalTransactions = m.successfulTx + m.failedTx) :
    (updateMetrics t m).totalTransactions
      = (updateMetrics t m).successfulTx + (updateMetrics t m).failedTx := by
  cases t with
  | transaction s => cases s <;> simp [updateMetrics] <;> omega
  | rpcFailure => simpa [updateMetrics] using h
  | reconnection => simpa [updateMetrics] using h
  | lockReset => simpa [updateMetrics] using h
  | unknown => simpa [updateMetrics] using h

/-- Any sequence of `updateMetrics` calls preserves the counter
invariant. -/
theorem metricsFold_total (ts : List MetricType) :
    ∀ m : Metrics, m.totalTransactions = m.successfulTx + m.failedTx →
      (ts.foldl (fun acc u => updateMetrics u acc) m).totalTransactions
        = (ts.foldl (fun acc u => updateMetrics u acc) m).successfulTx
          + (ts.foldl (fun acc u => updateMetrics u acc) m).failedTx := by
  induction ts with
  | nil => intro m h; simpa using h
  | cons t rest ih => intro m h; exact ih _ (updateMetrics_preserves_total t m h)

/-- C10: after every sequence of `updateMetrics` calls from the initial
metrics, `totalTransactions = successfulTx + failedTx`; a successful
`transaction` call zeroes `consecutiveFailures`, a failed one increments
it by exactly one, and a call of any other type leaves
`totalTransactions`, `successfulTx`, `failedTx` and
`consecutiveFailures` unchanged. -/
theorem c10_updateMetrics_counters (m : Metrics) (t : MetricType)
    (ts : List MetricType) :
    ((ts.foldl (fun acc u => updateMetrics u acc) initialMetrics).totalTransactions
       = (ts.foldl (fun acc u => updateMetrics u acc) initialMetrics).successfulTx
         + (ts.foldl (fun acc u => updateMetrics u acc) initialMetrics).failedTx)
  ∧ ((updateMetrics (.transaction true) m).consecutiveFailures = 0)
  ∧ ((updateMetrics (.transaction false) m).consecutiveFailures
       = m.consecutiveFailures + 1)
  ∧ ((∀ b, t ≠ .transaction b) →
      (updateMetrics t m).totalTransactions = m.totalTransactions
      ∧ (updateMetrics t m).successfulTx = m.successfulTx
      ∧ (updateMetrics t m).failedTx = m.failedTx
      ∧ (updateMetrics t m).consecutiveFailures = m.consecutiveFailures) := by
  refine ⟨metricsFold_total ts initialMetrics rfl,
          by simp [updateMetrics], by simp [updateMetrics], ?_⟩
  intro h
  cases t with
  | transaction b => exact absurd rfl (h b)
  | rpcFailure => simp [updateMetrics]
  | reconnection => simp [updateMetrics]
  | lockReset => simp [updateMetrics]
  | unknown => simp [updateMetrics]

/-- C10 witness: a `rpc_failure` call leaves the transaction counters
unchanged and a failed `transaction` call increments the streak. -/
theorem c10_updateMetrics_counters_witness :
    (updateMetrics .rpcFailure initialMetrics).totalTransactions
        = initialMetrics.totalTransactions
  ∧ (updateMetrics (.transaction false) initialMetrics).consecutiveFailures
        = initialMetrics.consecutiveFailures + 1 :=
  ⟨((c10_updateMetrics_counters initialMetrics .rpcFailure []).2.2.2
      (by decide)).1,
   (c10_updateMetrics_counters initialMetrics .rpcFailure []).2.2.1⟩

/-! ## C9 — the stale-lock sweep -/

/-- C9 counterexample: a lock that is held — here by a run of any age,
the table records no acquisition time at all — is cleared by
`resetProcessingLocks`, so the sweep does not leave any within-budget
lock set to `true`. -/
theorem c9_sweep_counterexample :
    getLock [("a", true)] "a" = true
  ∧ getLock (resetProcessingLocks [("a", true)]).1 "a" = false := by
  decide

/-- C9 amended: `resetProcessingLocks` unconditionally clears every
held lock whenever it runs (the table keys are preserved and every
entry comes out `false`), and it reports the number of locks that were
held; there is no per-lock time-budget check. -/
theorem c9_sweep_clears_every_lock (l : Locks) :
    (∀ e ∈ (resetProcessingLocks l).1, e.2 = false)
  ∧ ((resetProcessingLocks l).1.map Prod.fst = l.map Prod.fst)
  ∧ ((resetProcessingLocks l).2 = (l.filter fun e => e.2).length) := by
  refine ⟨?_, ?_, rfl⟩
  · intro e he
    simp only [resetProcessingLocks] at he
    rcases List.mem_map.mp he with ⟨x, _, rfl⟩
    rfl
  · simp [resetProcessingLocks]

/-- C9 amended witness: on the table holding one held lock, the sweep
preserves the key and the cleared entry reads `false`. -/
theorem c9_sweep_clears_every_lock_witness :
    ("a", false).2 = false
  ∧ (resetProcessingLocks [("a", true)]).1.map Prod.fst = ["a"] :=
  ⟨(c9_sweep_clears_every_lock [("a", true)]).1 ("a", false) (by decide),
   ((c9_sweep_clears_every_lock [("a", true)]).2.1).trans rfl⟩

/-! ## C4 — the lock is released on every exit path -/

/-- C4: whenever `transferWithRetry` runs on an asset whose lock is
free — so the invocation acquires it rather than hitting the reentrancy
guard — the lock is `false` again after the invocation completes, for
every environment: success, zero balance, unknown token, terminal
failure, exhausted retries, and errors thrown anywhere in the body all
pass through the `finally` release. -/
theorem c4_lock_released_on_exit (env : TransferEnv) (a : String)
    (s : BotState) (h : getLock s.locks (normalizeAddr a) = false) :
    getLock (transferWithRetry env a s).2.locks (normalizeAddr a) = false := by
  unfold transferWithRetry
  simp [h, getLock_setLock_self]

/-- C4 witness: a clean run on the free lock `"a"` leaves it free. -/
theorem c4_lock_released_on_exit_witness :
    getLock (transferWithRetry envClean "a" jobState10).2.locks
      (normalizeAddr "a") = false :=
  c4_lock_released_on_exit envClean "a" jobState10 (by decide)

/-! ## C2 — FIFO drain with at most one job in flight -/

/-- One scheduler step preserves the drain-order invariant. -/
theorem qstep_preserves_order (op : QOp) (s : QState)
    (h : s.processed ++ s.inFlight.toList ++ s.queue = s.arrivals) :
    (qstep op s).processed ++ (qstep op s).inFlight.toList
        ++ (qstep op s).queue = (qstep op s).arrivals := by
  cases op with
  | arrive a =>
    simp only [qstep]
    rw [← h]
    simp [List.append_assoc]
  | beginJob =>
    by_cases hp : s.processing ∧ s.inFlight = none
    · obtain ⟨hp1, hp2⟩ := hp
      cases hq : s.queue with
      | nil =>
        rw [hp2, hq] at h
        simpa [qstep, hp1, hp2, hq] using h
      | cons j rest =>
        rw [hp2, hq] at h
        simpa [qstep, hp1, hp2, hq, List.append_assoc] using h
    · simp [qstep, hp, h]
  | endJob =>
    cases hf : s.inFlight with
    | none => simpa [qstep, hf] using h
    | some j =>
      rw [hf] at h
      simpa [qstep, hf, List.append_assoc] using h

/-- The drain-order invariant holds after any operation sequence. -/
theorem runOps_order_aux (ops : List QOp) :
    ∀ s : QState, s.processed ++ s.inFlight.toList ++ s.queue = s.arrivals →
      (ops.foldl (fun t op => qstep op t) s).processed
        ++ (ops.foldl (fun t op => qstep op t) s).inFlight.toList
        ++ (ops.foldl (fun t op => qstep op t) s).queue
      = (ops.foldl (fun t op => qstep op t) s).arrivals := by
  induction ops with
  | nil => intro s h; simpa using h
  | cons op rest ih => intro s h; exact ih _ (qstep_preserves_order op s h)

/-- C2: in every schedule of arrivals and drain steps from the idle
queue, the completed jobs followed by the (at most one) in-flight job
followed by the still-queued jobs equal the arrivals in order — jobs
are taken strictly in enqueue order and each is completed before the
next is dequeued — and at most one job is ever in flight (the
`beginJob` guard models the drain loop's `await`). -/
theorem c2_fifo_single_flight (ops : List QOp) :
    ((runOps ops).processed ++ (runOps ops).inFlight.toList
        ++ (runOps ops).queue = (runOps ops).arrivals)
  ∧ (runOps ops).inFlight.toList.length ≤ 1 := by
  constructor
  · exact runOps_order_aux ops initQState rfl
  · cases (runOps ops).inFlight <;> simp

/-! ## C3 — `callWithFallback` -/

/-- If `callWithFallback` raises, every endpoint failed and the raised
error is the last endpoint's. -/
theorem callWithFallback_error {ε α : Type} (rs : List (Except ε α)) (e : ε)
    (h : callWithFallback rs = .error e) :
    (∀ r ∈ rs, r.toOption = none) ∧ rs.getLast? = some (.error e) := by
  induction rs with
  | nil => simp [callWithFallback] at h
  | cons r rest ih =>
    cases rest with
    | nil =>
      cases r with
      | ok a => simp [callWithFallback] at h
      | error e' =>
        simp only [callWithFallback, Except.error.injEq] at h
        subst h
        exact ⟨by simp [Except.toOption], rfl⟩
    | cons r2 rest2 =>
      cases r with
      | ok a => simp [callWithFallback] at h
      | error e' =>
        have h' : callWithFallback (r2 :: rest2) = .error e := by
          simpa [callWithFallback] using h
        obtain ⟨hall, hlast⟩ := ih h'
        refine ⟨?_, ?_⟩
        · intro x hx
          rcases List.mem_cons.mp hx with rfl | hx'
          · simp [Except.toOption]
          · exact hall x hx'
        · simpa [List.getLast?_cons_cons] using hlast

/-- `callWithFallback` returns the first endpoint's success. -/
theorem callWithFallback_firstSuccess {ε α : Type} (rs : List (Except ε α))
    (a : α) (h : firstSuccess rs = some a) :
    callWithFallback rs = .ok (some a) := by
  induction rs with
  | nil => simp [firstSuccess] at h
  | cons r rest ih =>
    cases r with
    | ok b =>
      have hb : b = a := by
        simpa [firstSuccess, Except.toOption] using h
      subst hb
      cases rest with
      | nil => rfl
      | cons r2 rest2 => rfl
    | error e' =>
      have h' : firstSuccess rest = some a := by
        simpa [firstSuccess, Except.toOption] using h
      cases rest with
      | nil => simp [firstSuccess] at h'
      | cons r2 rest2 => simpa [callWithFallback] using ih h'

/-- When the pool is nonempty and every endpoint fails,
`callWithFallback` raises. -/
theorem callWithFallback_allFail {ε α : Type} (rs : List (Except ε α))
    (hne : rs ≠ []) (hall : ∀ r ∈ rs, r.toOption = none) :
    ∃ e, callWithFallback rs = .error e := by
  induction rs with
  | nil => exact absurd rfl hne
  | cons r rest ih =>
    cases r with
    | ok b =>
      have hb := hall (.ok b) (List.mem_cons_self _ _)
      simp [Except.toOption] at hb
    | error e' =>
      cases rest with
      | nil => exact ⟨e', rfl⟩
      | cons r2 rest2 =>
        obtain ⟨e, he⟩ :=
          ih (by simp) (fun x hx => hall x (List.mem_cons_of_mem _ hx))
        exact ⟨e, by simpa [callWithFallback] using he⟩

/-- C3: for every pool and every (deterministic) operation result list,
`callWithFallback` raises to its caller only when the operation failed
on every endpoint — and then it raises the last endpoint's error;
whenever some endpoint succeeds it returns the first success; and on a
nonempty pool where all endpoints fail it does raise. -/
theorem c3_callWithFallback (ε α : Type) (rs : List (Except ε α)) :
    (∀ e, callWithFallback rs = .error e →
       (∀ r ∈ rs, r.toOption = none) ∧ rs.getLast? = some (.error e))
  ∧ (∀ a, firstSuccess rs = some a → callWithFallback rs = .ok (some a))
  ∧ (rs ≠ [] → (∀ r ∈ rs, r.toOption = none) →
       ∃ e, callWithFallback rs = .error e) :=
  ⟨fun e h => callWithFallback_error rs e h,
   fun a h => callWithFallback_firstSuccess rs a h,
   fun hne hall => callWithFallback_allFail rs hne hall⟩

/-- C3 witness: with endpoint 0 failing and endpoint 1 succeeding the
first success is returned; with both failing the error raised is the
last one and both endpoints indeed failed. -/
theorem c3_callWithFallback_witness :
    callWithFallback [Except.error "x", Except.ok (3 : Nat)] = .ok (some 3)
  ∧ (∀ r ∈ [Except.error "x", (Except.error "y" : Except String Nat)],
       r.toOption = none)
  ∧ [Except.error "x", (Except.error "y" : Except String Nat)].getLast?
       = some (.error "y") :=
  ⟨(c3_callWithFallback String Nat [Except.error "x", Except.ok 3]).2.1 3 rfl,
   ((c3_callWithFallback String Nat
       [Except.error "x", Except.error "y"]).1 "y" rfl).1,
   ((c3_callWithFallback String Nat
       [Except.error "x", Except.error "y"]).1 "y" rfl).2⟩

/-! ## C6 — `selectBestProvider` -/

/-- `minLatency` distributes over cons. -/
theorem minLatency_cons (a : Option Nat) (ls : List (Option Nat)) :
    minLatency (a :: ls) = latMin a (minLatency ls) := rfl

/-- If every latency is `Infinity`, `Math.min` is `Infinity`. -/
theorem minLatency_eq_none (ls : List (Option Nat))
    (h : ∀ l ∈ ls, l = none) : minLatency ls = none := by
  induction ls with
  | nil => rfl
  | cons a rest ih =>
    have ha := h a (List.mem_cons_self a rest)
    have hr := ih (fun l hl => h l (List.mem_cons_of_mem _ hl))
    rw [minLatency_cons, ha, hr]
    rfl

/-- `Math.min` over the table: `Infinity` only when nothing is
reachable, and a finite result is an element that bounds every
reachable latency from below. -/
theorem minLatency_spec (ls : List (Option Nat)) :
    (minLatency ls = none → ∀ w, some w ∉ ls)
  ∧ (∀ v, minLatency ls = some v →
       some v ∈ ls ∧ ∀ w, some w ∈ ls → v ≤ w) := by
  induction ls with
  | nil =>
    constructor
    · intro _ w hw
      simp at hw
    · intro v hv
      simp [minLatency] at hv
  | cons a rest ih =>
    obtain ⟨ihn, ihs⟩ := ih
    constructor
    · intro h w hw
      rw [minLatency_cons] at h
      cases a with
      | none =>
        simp only [latMin] at h
        rcases List.mem_cons.mp hw with hwa | hw'
        · exact Option.noConfusion hwa
        · exact ihn h w hw'
      | some x =>
        cases hm : minLatency rest with
        | none => rw [hm] at h; simp [latMin] at h
        | some y => rw [hm] at h; simp [latMin] at h
    · intro v hv
      rw [minLatency_cons] at hv
      cases a with
      | none =>
        simp only [latMin] at hv
        obtain ⟨hmem, hle⟩ := ihs v hv
        refine ⟨List.mem_cons_of_mem _ hmem, ?_⟩
        intro w hw
        rcases List.mem_cons.mp hw with hwa | hw'
        · exact Option.noConfusion hwa
        · exact hle w hw'
      | some x =>
        cases hm : minLatency rest with
        | none =>
          rw [hm] at hv
          simp only [latMin, Option.some.injEq] at hv
          subst hv
          refine ⟨List.mem_cons_self _ _, ?_⟩
          intro w hw
          rcases List.mem_cons.mp hw with hwa | hw'
          · rw [Option.some.inj hwa]
          · exact absurd hw' (ihn hm w)
        | some y =>
          rw [hm] at hv
          simp only [latMin, Option.some.injEq] at hv
          obtain ⟨hymem, hyle⟩ := ihs y hm
          subst hv
          constructor
          · rcases min_cases x y with ⟨h1, _⟩ | ⟨h1, _⟩
            · rw [h1]; exact List.mem_cons_self _ _
            · rw [h1]; exact List.mem_cons_of_mem _ hymem
          · intro w hw
            rcases List.mem_cons.mp hw with hwa | hw'
            · rw [Option.some.inj hwa]; exact min_le_left x y
            · exact le_trans (min_le_right x y) (hyle w hw')

/-- C6: when no endpoint is reachable, `selectBestProvider` leaves the
selection unchanged; when at least one endpoint is reachable, it points
`currentIndex` inside the table at an entry that is reachable and of
minimum latency — never at an unreachable one; and on the latency table
`[120, 45, 200]` it selects endpoint 1. -/
theorem c6_selectBestProvider (s : PoolState) :
    ((∀ l ∈ s.latencies, l = none) → selectBestProvider s = s)
  ∧ ((∃ w, some w ∈ s.latencies) →
      ∃ v, (selectBestProvider s).currentIndex < s.latencies.length
        ∧ s.latencies.getD (selectBestProvider s).currentIndex none = some v
        ∧ ∀ w, some w ∈ s.latencies → v ≤ w)
  ∧ ((selectBestProvider ⟨[some 120, some 45, some 200], 0⟩).currentIndex
       = 1) := by
  refine ⟨?_, ?_, by decide⟩
  · intro h
    unfold selectBestProvider
    rw [minLatency_eq_none _ h]
    simp
  · rintro ⟨w, hw⟩
    cases hm : minLatency s.latencies with
    | none => exact absurd hw ((minLatency_spec s.latencies).1 hm w)
    | some v =>
      obtain ⟨hmem, hle⟩ := (minLatency_spec s.latencies).2 v hm
      have hsel : (selectBestProvider s).currentIndex
          = indexOfLat s.latencies (some v) := by
        unfold selectBestProvider
        rw [hm]
        simp
      have hex : ∃ x ∈ s.latencies, (fun x => decide (x = some v)) x = true :=
        ⟨some v, hmem, by simp⟩
      have hlt : s.latencies.findIdx (fun x => decide (x = some v))
          < s.latencies.length :=
        List.findIdx_lt_length_of_exists hex
      have hp := @List.findIdx_getElem _ (fun x => decide (x = some v))
        s.latencies hlt
      refine ⟨v, ?_, ?_, hle⟩
      · rw [hsel]
        simpa [indexOfLat] using hlt
      · rw [hsel]
        simp only [indexOfLat]
        rw [List.getD_eq_getElem?_getD, List.getElem?_eq_getElem hlt]
        simpa using hp

/-- C6 witness: on the table with endpoint 0 unreachable and endpoint 1
at 7ms, the selection lands inside the table on the 7ms entry; on an
all-unreachable table the state is untouched. -/
theorem c6_selectBestProvider_witness :
    (∃ v, (selectBestProvider ⟨[none, some 7], 0⟩).currentIndex < 2
      ∧ [none, some 7].getD
          (selectBestProvider ⟨[none, some 7], 0⟩).currentIndex none = some v
      ∧ ∀ w, some w ∈ [none, some 7] → v ≤ w)
  ∧ selectBestProvider ⟨[none, none], 3⟩ = ⟨[none, none], 3⟩ :=
  ⟨(c6_selectBestProvider ⟨[none, some 7], 0⟩).2.1 ⟨7, by decide⟩,
   (c6_selectBestProvider ⟨[none, none], 3⟩).1 (by decide)⟩

/-! ## Transfer-loop helpers -/

/-- A run that passes the reentrancy guard behaves as the body on the
lock-acquired state; the `finally` release touches only the lock
table. -/
theorem transferWithRetry_proj (env : TransferEnv) (a : String) (s : BotState)
    (hlock : getLock s.locks (normalizeAddr a) = false) :
    (transferWithRetry env a s).1
      = (transferBody env { s with locks := setLock s.locks (normalizeAddr a) true }).1
  ∧ (transferWithRetry env a s).2.events
      = (transferBody env { s with locks := setLock s.locks (normalizeAddr a) true }).2.events
  ∧ (transferWithRetry env a s).2.txNonce
      = (transferBody env { s with locks := setLock s.locks (normalizeAddr a) true }).2.txNonce
  ∧ (transferWithRetry env a s).2.metrics
      = (transferBody env { s with locks := setLock s.locks (normalizeAddr a) true }).2.metrics := by
  simp [transferWithRetry, hlock]

/-- With a known token, a nonzero balance and a nonzero sequencer
nonce already in hand, the body goes straight into the retry loop. -/
theorem transferBody_run (env : TransferEnv) (s : BotState) (b n : Nat)
    (htok : env.tokenKnown = true) (hbal : env.balance = some b) (hb : b ≠ 0)
    (hn : s.txNonce = some n) (hn0 : n ≠ 0) :
    transferBody env s = retryLoop env 5 0 none n s := by
  simp [transferBody, htok, hbal, hb, hn, hn0]

/-- Whenever the retry loop ends in success with nonce `m`, the
sequencer nonce it hands back is exactly `m + 1`. -/
theorem retryLoop_success_txNonce (env : TransferEnv) :
    ∀ (fuel attempt nonce : Nat) (gp : Option Nat) (s : BotState) (m g : Nat),
      (retryLoop env fuel attempt gp nonce s).1 = .success m g →
      (retryLoop env fuel attempt gp nonce s).2.txNonce = some (m + 1) := by
  intro fuel
  induction fuel with
  | zero =>
    intro attempt nonce gp s m g h
    simp [retryLoop] at h
  | succ fuel ih =>
    intro attempt nonce gp s m g h
    cases hg : env.gas (attempt + 1) with
    | none =>
      cases gp with
      | none => simp [retryLoop, hg] at h
      | some gprev =>
        simp only [retryLoop, hg] at h ⊢
        exact ih _ _ _ _ _ _ h
    | some est =>
      cases ho : env.outcome (attempt + 1) with
      | success =>
        simp only [retryLoop, hg, ho] at h ⊢
        obtain ⟨rfl, rfl⟩ : nonce = m ∧ est * 120 / 100 = g := by
          simpa using h
        simp [pushEv]
      | fail fk =>
        cases fk with
        | nonceTooLow p =>
          simp only [retryLoop, hg, ho] at h ⊢
          exact ih _ _ _ _ _ _ h
        | underpriced =>
          simp only [retryLoop, hg, ho] at h ⊢
          exact ih _ _ _ _ _ _ h
        | insufficientFunds =>
          simp [retryLoop, hg, ho] at h
        | other =>
          simp only [retryLoop, hg, ho] at h ⊢
          exact ih _ _ _ _ _ _ h

/-! ## C1 — nonce discipline -/

/-- C1 counterexample: starting from sequencer nonce 10, the first
attempt is rejected with `nonce too low` and the resync reads pending
count 50; the next submission then carries nonce 51 — the freshly read
pending count **plus one** (the resync branch falls through to the
loop's unconditional `nonce++`) — not 50 as the claim states. -/
theorem c1_resync_counterexample :
    submitNonces (transferWithRetry envResync "a" jobState10).2.events
        = [10, 51]
  ∧ ¬ submitNonces (transferWithRetry envResync "a" jobState10).2.events
        = [10, 50] := by
  decide

/-- C1 amended: (i) a successful submission with nonce `m` always hands
`m + 1` back to the sequencer, so the next job that succeeds on its
first attempt uses exactly the previous success's nonce + 1; (ii) a job
whose first attempt succeeds submits with the nonce it was handed;
(iii) after a `nonce too low` rejection that resyncs to the freshly
read pending count `p`, the next submission uses `p + 1` — the pending
count plus one, because the catch block's unconditional `nonce++` also
runs after the resync. -/
theorem c1_nonce_discipline (env : TransferEnv)
    (fuel attempt nonce p gv gv2 : Nat) (gp : Option Nat) (s : BotState)
    (m g : Nat) :
    ((retryLoop env fuel attempt gp nonce s).1 = .success m g →
       (retryLoop env fuel attempt gp nonce s).2.txNonce = some (m + 1))
  ∧ (env.gas (attempt + 1) = some gv →
     env.outcome (attempt + 1) = .success →
       (retryLoop env (fuel + 1) attempt gp nonce s).1
         = .success nonce (gv * 120 / 100))
  ∧ (env.gas (attempt + 1) = some gv →
     env.outcome (attempt + 1) = .fail (.nonceTooLow p) →
     env.gas (attempt + 2) = some gv2 →
     env.outcome (attempt + 2) = .success →
       (retryLoop env (fuel + 1 + 1) attempt gp nonce s).1
         = .success (p + 1) (gv2 * 120 / 100)) := by
  refine ⟨retryLoop_success_txNonce env fuel attempt nonce gp s m g, ?_, ?_⟩
  · intro hg ho
    simp [retryLoop, hg, ho]
  · intro hg1 ho1 hg2 ho2
    simp [retryLoop, hg1, ho1, hg2, ho2]

/-- C1 witness: concrete runs of the three amended facts — the
resync-then-success run submits at 51 = 50 + 1, a clean run submits at
the handed nonce 10, and after succeeding at 51 the sequencer holds
52. -/
theorem c1_nonce_discipline_witness :
    (retryLoop envResync (3 + 1 + 1) 0 none 10 jobState10).1 = .success 51 120
  ∧ (retryLoop envClean (4 + 1) 0 none 10 jobState10).1 = .success 10 120
  ∧ (retryLoop envResync 5 0 none 10 jobState10).2.txNonce = some 52 :=
  ⟨(c1_nonce_discipline envResync 3 0 10 50 100 100 none jobState10 0 0).2.2
      rfl rfl rfl rfl,
   (c1_nonce_discipline envClean 4 0 10 0 100 0 none jobState10 0 0).2.1
      rfl rfl,
   (c1_nonce_discipline envResync 5 0 10 0 0 0 none jobState10 51 120).1 rfl⟩

/-! ## C5 — gas price and nonce across two failed attempts -/

/-- C5 counterexample: with every fresh gas estimate equal to 100, two
generic failures and a third-attempt success, the claim predicts a
final gas price of 100·1.2·1.1·1.1 = 145 (with truncating division),
but the run succeeds at gas 120 = 100·1.2: each attempt refetches the
estimate and overwrites the retry bumps.  The nonce part (initial + 2)
does hold. -/
theorem c5_gas_counterexample :
    (transferWithRetry envTwoFails "a" jobState7).1 = .success 9 120
  ∧ 100 * 120 / 100 * 110 / 100 * 110 / 100 = 145
  ∧ ¬ (transferWithRetry envTwoFails "a" jobState7).1 = .success 9 145 := by
  decide

/-- C5 amended: in a run whose submissions fail twice with generic
errors and succeed on the third attempt, every attempt submits at its
own fresh estimate times 1.2 (`mul(120).div(100)`) — the ×1.1 retry
bumps are overwritten by the next attempt's fresh fetch, so the final
gas price is the third fresh estimate × 1.2 — and the nonce used on
success equals the initial nonce plus 2. -/
theorem c5_two_failures_then_success (env : TransferEnv) (a : String)
    (s : BotState) (b n g1 g2 g3 : Nat)
    (hlock : getLock s.locks (normalizeAddr a) = false)
    (htok : env.tokenKnown = true)
    (hbal : env.balance = some b) (hb : b ≠ 0)
    (hn : s.txNonce = some n) (hn0 : n ≠ 0)
    (hg1 : env.gas 1 = some g1) (ho1 : env.outcome 1 = .fail .other)
    (hg2 : env.gas 2 = some g2) (ho2 : env.outcome 2 = .fail .other)
    (hg3 : env.gas 3 = some g3) (ho3 : env.outcome 3 = .success) :
    (transferWithRetry env a s).1 = .success (n + 2) (g3 * 120 / 100)
  ∧ (transferWithRetry env a s).2.events
      = s.events ++ [.submit 1 n (g1 * 120 / 100),
                     .submit 2 (n + 1) (g2 * 120 / 100),
                     .submit 3 (n + 2) (g3 * 120 / 100),
                     .notify .confirmed] := by
  obtain ⟨hf, he, -, -⟩ := transferWithRetry_proj env a s hlock
  rw [hf, he, transferBody_run env
      { s with locks := setLock s.locks (normalizeAddr a) true } b n
      htok hbal hb hn hn0]
  constructor
  · simp [retryLoop, hg1, ho1, hg2, ho2, hg3, ho3]
  · simp [retryLoop, hg1, ho1, hg2, ho2, hg3, ho3, pushEv]

/-- C5 witness: the concrete §8 scenario run — fresh estimates all 100,
start nonce 7 — succeeds at nonce 9 and gas 120, with the three
submissions at gas 120 each. -/
theorem c5_two_failures_then_success_witness :
    (transferWithRetry envTwoFails "a" jobState7).1 = .success (7 + 2) 120
  ∧ (transferWithRetry envTwoFails "a" jobState7).2.events
      = [.submit 1 7 120, .submit 2 8 120, .submit 3 9 120,
         .notify .confirmed] :=
  ⟨(c5_two_failures_then_success envTwoFails "a" jobState7 1000 7 100 100 100
      (by decide) rfl rfl (by decide) rfl (by decide)
      rfl rfl rfl rfl rfl rfl).1,
   ((c5_two_failures_then_success envTwoFails "a" jobState7 1000 7 100 100 100
      (by decide) rfl rfl (by decide) rfl (by decide)
      rfl rfl rfl rfl rfl rfl).2).trans rfl⟩

/-! ## C7 — `insufficient funds` is terminal -/

/-- C7: if a submission attempt fails with `insufficient funds`, the
job ends immediately with a terminal failure — the trace shows exactly
one submission, so no further attempt is made regardless of the
remaining retry budget — the failure is reported through the metrics
counter and the notification before returning, and the asset's
processing lock is released. -/
theorem c7_insufficient_funds_terminal (env : TransferEnv) (a : String)
    (s : BotState) (b n g : Nat)
    (hlock : getLock s.locks (normalizeAddr a) = false)
    (htok : env.tokenKnown = true)
    (hbal : env.balance = some b) (hb : b ≠ 0)
    (hn : s.txNonce = some n) (hn0 : n ≠ 0)
    (hg : env.gas 1 = some g)
    (ho : env.outcome 1 = .fail .insufficientFunds) :
    (transferWithRetry env a s).1 = .fatal
  ∧ (transferWithRetry env a s).2.events
      = s.events ++ [.submit 1 n (g * 120 / 100), .notify .insufficientFunds]
  ∧ (transferWithRetry env a s).2.metrics
      = updateMetrics (.transaction false) s.metrics
  ∧ getLock (transferWithRetry env a s).2.locks (normalizeAddr a) = false := by
  obtain ⟨hf, he, -, hm⟩ := transferWithRetry_proj env a s hlock
  rw [hf, he, hm, transferBody_run env
      { s with locks := setLock s.locks (normalizeAddr a) true } b n
      htok hbal hb hn hn0]
  refine ⟨?_, ?_, ?_, ?_⟩
  · simp [retryLoop, hg, ho]
  · simp [retryLoop, hg, ho, pushEv]
  · simp [retryLoop, hg, ho, pushEv]
  · unfold transferWithRetry
    simp [hlock, getLock_setLock_self]

/-- C7 witness: the concrete `insufficient funds` run ends `fatal` with
exactly one submission and its lock free. -/
theorem c7_insufficient_funds_terminal_witness :
    (transferWithRetry envFatal "a" jobState10).1 = .fatal
  ∧ (transferWithRetry envFatal "a" jobState10).2.events
      = [.submit 1 10 120, .notify .insufficientFunds]
  ∧ getLock (transferWithRetry envFatal "a" jobState10).2.locks
      (normalizeAddr "a") = false :=
  ⟨(c7_insufficient_funds_terminal envFatal "a" jobState10 5 10 100
      (by decide) rfl rfl (by decide) rfl (by decide) rfl rfl).1,
   ((c7_insufficient_funds_terminal envFatal "a" jobState10 5 10 100
      (by decide) rfl rfl (by decide) rfl (by decide) rfl rfl).2.1).trans rfl,
   (c7_insufficient_funds_terminal envFatal "a" jobState10 5 10 100
      (by decide) rfl rfl (by decide) rfl (by decide) rfl rfl).2.2.2⟩

/-! ## C8 — duplicate-event suppression -/

/-- C8 counterexample: job `"a"` has been enqueued (behind a running
job `"b"`) but has not yet started, so its processing lock is still
free; a second inbound-transfer event for `"a"` is **not** suppressed —
`enqueueTransfer` checks only the lock — and a duplicate job enters the
FIFO. -/
theorem c8_duplicate_enqueue_counterexample :
    (enqueueTransfer "a" busyWatch).queue = ["a", "a"]
  ∧ enqueueTransfer "a" busyWatch ≠ busyWatch := by
  decide

/-- C8 amended: a second `enqueueTransfer` for an asset is suppressed
exactly when the asset's processing lock is held at call time — which
happens once the first job has started processing (and, the first job
starting synchronously when the queue is idle, in the idle-queue
scenario); while the first job is still waiting in the queue the lock
is free and the call appends a duplicate job. -/
theorem c8_enqueue_suppressed_iff_locked (a : String) (s : WatchState) :
    (getLock s.locks (normalizeAddr a) = true → enqueueTransfer a s = s)
  ∧ (getLock s.locks (normalizeAddr a) = false →
       (enqueueTransfer a s).queue = s.queue ++ [normalizeAddr a]
       ∧ (enqueueTransfer a s).locks = s.locks) := by
  constructor
  · intro h
    simp [enqueueTransfer, h]
  · intro h
    simp [enqueueTransfer, h]

/-- C8 witness: an event for the running (locked) job `"b"` is
suppressed; an event for a fresh asset `"c"` is appended. -/
theorem c8_enqueue_suppressed_iff_locked_witness :
    enqueueTransfer "b" busyWatch = busyWatch
  ∧ (enqueueTransfer "c" busyWatch).queue
      = busyWatch.queue ++ [normalizeAddr "c"] :=
  ⟨(c8_enqueue_suppressed_iff_locked "b" busyWatch).1 (by decide),
   ((c8_enqueue_suppressed_iff_locked "c" busyWatch).2 (by decide)).1⟩

end LineaBot
